import Mathlib

/-!
Shallow embedding of the validator core of the `commune` repository
(`src/commune/vali/vali.py`) and proofs of the specification claims
about it.

Scores, weights and timestamps are modelled as exact rationals (`ℚ`);
Python dictionaries holding a module's cached record are modelled as a
structure whose possibly-missing keys are `Option` fields; Python
exceptions are modelled with `Except`.  External collaborators (the
module transport `c.connect` / `module.info`, the chain's `key2uid`
map, the weight-submission call) are oracles passed in as explicit
arguments, following the interfaces given in the specification.
-/

namespace Vali

instance {ε α : Type} [DecidableEq ε] [DecidableEq α] : DecidableEq (Except ε α)
  | .ok a, .ok b =>
    if h : a = b then .isTrue (by rw [h])
    else .isFalse (fun hh => by cases hh; exact h rfl)
  | .error a, .error b =>
    if h : a = b then .isTrue (by rw [h])
    else .isFalse (fun hh => by cases hh; exact h rfl)
  | .ok _, .error _ => .isFalse (fun hh => by cases hh)
  | .error _, .ok _ => .isFalse (fun hh => by cases hh)

/-- A module's cached record (the JSON blob stored per module), restricted
to the keys the validator reads: `name`, `address`, `timestamp`, `w`,
`ss58_address`, `latency`.  `none` models a missing key (`address` uses
`none` for Python `None` as well, since `get_module_info` always sets the
key). -/
structure Info where
  name : String
  address : Option String
  timestamp : Option ℚ
  w : Option ℚ
  ss58_address : Option String
  latency : Option ℚ
deriving DecidableEq, Repr

/-- The record stored for a module before it was ever evaluated:
`load_module_info(name, {})` returns an empty dict, to which
`get_module_info` adds `name` and `address`. -/
def emptyInfo : Info :=
  { name := "", address := none, timestamp := none, w := none,
    ss58_address := none, latency := none }

/-- The dict returned by the module's self-report `module.info(timeout)`,
restricted to the keys that can affect the validator's state.  A `some`
field models the key being present in the returned dict. -/
structure MInfo where
  name : Option String
  address : Option String
  w : Option ℚ
  ss58_address : Option String
deriving DecidableEq, Repr

/-- Model of `info.update(module_info)`: right-biased, key-wise dictionary update
(a key present in `module_info` overwrites the cached value). -/
def updateInfo (i : Info) (m : MInfo) : Info :=
  { i with
    name := m.name.getD i.name
    address := match m.address with | some a => some a | none => i.address
    w := match m.w with | some w => some w | none => i.w
    ss58_address := match m.ss58_address with | some s => some s | none => i.ss58_address }

/-- The duck-typed value returned by the pluggable scoring function:
an int/float, a bool, or a dict (whose optional `w` key we carry; other
dict keys cannot affect the blended score). -/
inductive PyResp where
  | num (x : ℚ)
  | boolean (b : Bool)
  | dict (w : Option ℚ)
deriving DecidableEq, Repr

/-- The normalized response: a dict that is guaranteed to carry `w`. -/
structure RespD where
  w : ℚ
deriving DecidableEq, Repr

/-- Model of `Vali.check_response`: numbers become `{'w': x}`, bools become
`{'w': int(b)}`, dicts must already contain a `w` key (the `assert`
raises otherwise, modelled as `Except.error`). -/
def check_response : PyResp → Except Unit RespD
  | .num x => .ok ⟨x⟩
  | .boolean b => .ok ⟨if b then 1 else 0⟩
  | .dict (some w) => .ok ⟨w⟩
  | .dict none => .error ()

/-- The `try` block of `eval_module` (lines 289-296): run the scoring
function and normalize its response; on any exception the caught branch
leaves `info` unchanged and the response weight used for the blend is 0.
First component: `response['w']` as read at the blend line; second:
`info` after `info.update(response)` (only updated on success). -/
def tryScore (score : Except Unit PyResp) (info2 : Info) : ℚ × Info :=
  match score with
  | .error _ => (0, info2)
  | .ok p =>
    match check_response p with
    | .error _ => (0, info2)
    | .ok d => (d.w, { info2 with w := some d.w })

/-- Whether the scoring step raises (either the scoring call itself or
the `check_response` normalization). -/
def scoreFailed : Except Unit PyResp → Bool
  | .error _ => true
  | .ok p => match check_response p with | .error _ => true | .ok _ => false

/-- The fresh weight that the blend line reads from `response['w']`:
the normalized score on success, 0 when the scoring step raised. -/
def freshW : Except Unit PyResp → ℚ
  | .error _ => 0
  | .ok p => match check_response p with | .error _ => 0 | .ok d => d.w

/-- The blend at vali.py line 299:
`info['w'] = response['w'] * alpha + info['w'] * (1 - alpha)`. -/
def blendW (alpha fresh oldw : ℚ) : ℚ :=
  fresh * alpha + oldw * (1 - alpha)

/-- Configuration fields of the validator read by `eval_module`. -/
structure EvalCfg where
  alpha : ℚ
  max_age : ℚ
deriving DecidableEq, Repr

/-- Exceptions that `eval_module` can raise to its caller. -/
inductive EvalErr where
  | connectError   -- `c.connect(info['address'])` raised (line 273)
  | infoError      -- `module.info(timeout=...)` raised (line 283)
  | keyErrorW      -- `info['w']` missing at the blend (line 299)
deriving DecidableEq, Repr

/-- The dict returned by `eval_module` on success, restricted to the
fields the claims mention.  `fresh = true` models the short-circuit
return (the one carrying a `msg` and no `latency`). -/
structure EvalReturn where
  w : ℚ
  modName : String
  fresh : Bool
  latency : Option ℚ
deriving DecidableEq, Repr

/-- Result and observable side effects of the body of `eval_module`
after the module's record was loaded: the returned value or the raised
exception, the final `requests` counter, whether the outbound connect
to the module's address was attempted, whether the outbound
`module.info` metadata call was made, and the record written by
`put_json` (if any). -/
structure EvalCore where
  res : Except EvalErr EvalReturn
  requests : ℕ
  connectTried : Bool
  infoCalled : Bool
  stored : Option Info
deriving DecidableEq, Repr

/-- The body of `Vali.eval_module` (vali.py lines 272-302) acting on an
already-loaded record `info0` (the result of `get_module_info`).
`connectOk` is the transport oracle for `c.connect`; `minfo` for
`module.info`; `score` for the scoring step; `t1 t2 t3` are the
successive values returned by `c.time()` at lines 275, 287 and 298. -/
def eval_core (cfg : EvalCfg) (info0 : Info) (connectOk : Bool)
    (minfo : Except Unit MInfo) (score : Except Unit PyResp)
    (t1 t2 t3 : ℚ) (requests0 : ℕ) : EvalCore :=
  if connectOk = false then
    -- `c.connect` raised before the requests counter was incremented
    { res := .error .connectError, requests := requests0,
      connectTried := true, infoCalled := false, stored := none }
  else
    let requests1 := requests0 + 1
    let staleness := t1 - info0.timestamp.getD 0
    if staleness < cfg.max_age then
      -- freshness short-circuit (lines 276-281)
      { res := .ok { w := info0.w.getD 0, modName := info0.name,
                     fresh := true, latency := none },
        requests := requests1, connectTried := true,
        infoCalled := false, stored := none }
    else
      match minfo with
      | .error _ =>
        -- `module.info` raised; not inside the try block, so it propagates
        { res := .error .infoError, requests := requests1,
          connectTried := true, infoCalled := true, stored := none }
      | .ok mi =>
        let info1 := updateInfo info0 mi
        let info2 := { info1 with timestamp := some t2 }
        let rw := tryScore score info2
        match rw.2.w with
        | none =>
          -- KeyError: `info['w']` at the blend line
          { res := .error .keyErrorW, requests := requests1,
            connectTried := true, infoCalled := true, stored := none }
        | some oldw =>
          let lat := t3 - t2
          let neww := blendW cfg.alpha rw.1 oldw
          let info4 := { rw.2 with w := some neww, latency := some lat }
          { res := .ok { w := neww, modName := info4.name,
                         fresh := false, latency := some lat },
            requests := requests1, connectTried := true,
            infoCalled := true, stored := some info4 }

/-- Association-list lookup for string-keyed stores (Python dict /
JSON-file directory; `putStore` prepends, so the head is the latest
write). -/
def lookupStr {α : Type} (k : String) : List (String × α) → Option α
  | [] => none
  | (k', v) :: rest => if k = k' then some v else lookupStr k rest

/-- Overwrite-on-write store update (`put_json`). -/
def putStore {α : Type} (s : List (String × α)) (k : String) (v : α) :
    List (String × α) := (k, v) :: s

/-- Model of the `get_module_info` name/address resolution (vali.py lines 244-252):
look the argument up in the namespace, then in the reversed namespace;
otherwise the address stays `None`. -/
def resolveModule (ns : List (String × String)) (m : String) :
    String × Option String :=
  match lookupStr m ns with
  | some a => (m, some a)
  | none =>
    match lookupStr m (ns.map (fun p => (p.2, p.1))) with
    | some n => (n, some m)
    | none => (m, none)

/-- External inputs of one `eval_module` call. -/
structure EvalIn where
  ns : List (String × String)
  store : List (String × Info)
  connectOk : Bool
  minfo : Except Unit MInfo
  score : Except Unit PyResp
  t1 : ℚ
  t2 : ℚ
  t3 : ℚ
  requests0 : ℕ
deriving DecidableEq, Repr

/-- Model of `Vali.eval_module`: resolve the module, load its cached record
(`get_module_info`), run the evaluation body, and apply the `put_json`
write to the store.  `c.connect(None)` raises, so the connect oracle is
conjoined with the address being resolvable. -/
def eval_module (cfg : EvalCfg) (m : String) (inp : EvalIn) :
    EvalCore × List (String × Info) :=
  let r := resolveModule inp.ns m
  let cached := (lookupStr r.1 inp.store).getD emptyInfo
  let info0 := { cached with name := r.1, address := r.2 }
  let c := eval_core cfg info0 (r.2.isSome && inp.connectOk)
    inp.minfo inp.score inp.t1 inp.t2 inp.t3 inp.requests0
  (c, match c.stored with
      | some rec => putStore inp.store rec.name rec
      | none => inp.store)

/-! ### Epoch scheduler (`Vali.epoch`, vali.py lines 102-164) -/

/-- The scheduler state visible inside the epoch loop: the in-flight
futures (identified by the module address they evaluate) and the list
of addresses submitted so far, in submission order. -/
structure EpochState where
  futures : List String
  submitted : List String
deriving DecidableEq, Repr

/-- What happens on one visit of the else-branch (lines 115-135): either
`c.as_completed` yields a completed future — the `j`-th in-flight one,
which is removed from `futures` — or it raises (timeout), in which case
every future is cancelled but the `futures` list itself is left
unchanged and the loop continues. -/
inductive DrainEv where
  | completes (j : ℕ)
  | timeoutErr
deriving DecidableEq, Repr

/-- One iteration of the `for module_address in module_addresses` loop:
if the pool has capacity, submit the current address; otherwise drain
one completion (or swallow a timeout) — the current address is *not*
submitted in that branch. -/
def epochStep (k : ℕ) (ev : DrainEv) (m : String) (s : EpochState) :
    EpochState :=
  if s.futures.length < k then
    { s with futures := s.futures ++ [m], submitted := s.submitted ++ [m] }
  else
    match ev with
    | .completes j => { s with futures := s.futures.eraseIdx (j % s.futures.length) }
    | .timeoutErr => s

/-- The dispatch loop, returning the state after each iteration together
with the final state.  `evs i` is the drain oracle consulted at
iteration `i`. -/
def epochLoop (k : ℕ) (evs : ℕ → DrainEv) :
    ℕ → List String → EpochState → List EpochState × EpochState
  | _, [], s => ([], s)
  | i, m :: ms, s =>
    let s' := epochStep k (evs i) m s
    let r := epochLoop k evs (i + 1) ms s'
    (s' :: r.1, r.2)

/-- The final drain (lines 154-163): `c.as_completed` over the remaining
futures, removing them one at a time in oracle order `dvs`. -/
def finalDrain (dvs : ℕ → ℕ) : ℕ → ℕ → EpochState → List EpochState
  | 0, _, _ => []
  | fuel + 1, i, s =>
    if s.futures.isEmpty then []
    else
      let s' := { s with futures := s.futures.eraseIdx (dvs i % s.futures.length) }
      s' :: finalDrain dvs fuel (i + 1) s'

/-- Model of `Vali.epoch` up to the final drain: the scheduler state when the
namespace has been fully iterated (the final drain does not change the
`submitted` list). -/
def epochRun (k : ℕ) (evs : ℕ → DrainEv) (mods : List String) : EpochState :=
  (epochLoop k evs 0 mods ⟨[], []⟩).2

/-- Every scheduler state an epoch passes through: the initial state,
the state after each loop iteration, and the states of the final
drain. -/
def epochTrace (k : ℕ) (evs : ℕ → DrainEv) (dvs : ℕ → ℕ)
    (mods : List String) : List EpochState :=
  let r := epochLoop k evs 0 mods ⟨[], []⟩
  ⟨[], []⟩ :: r.1 ++ finalDrain dvs r.2.futures.length 0 r.2

/-! ### Vote pipeline (`Vali.votes` / `Vali.vote`, vali.py lines 331-402) -/

/-- One entry of `module_infos(keys=['name','w','ss58_address'])`:
records selected there always carry the `ss58_address` key (its value
may still be the empty string), while `w` may be missing (`None`). -/
structure VInfo where
  name : String
  w : Option ℚ
  ss58_address : String
deriving DecidableEq, Repr

/-- The weighted slate built by `votes()`. -/
structure VoteSet where
  keys : List String
  weights : List ℚ
  uids : List ℕ
deriving DecidableEq, Repr

/-- The filtering loop of `Vali.votes` (lines 336-342): keep an info if
`info['w'] >= 0` and its `ss58_address` resolves in `key2uid`; a `w` of
`None` makes the comparison raise `TypeError` (modelled as
`Except.error`). -/
def votesGo (key2uid : List (String × ℕ)) :
    List VInfo → Except Unit (List String × List ℚ × List ℕ)
  | [] => .ok ([], [], [])
  | i :: rest =>
    match i.w with
    | none => .error ()
    | some w =>
      if 0 ≤ w then
        match lookupStr i.ss58_address key2uid with
        | some uid =>
          (votesGo key2uid rest).map
            (fun r => (i.ss58_address :: r.1, w :: r.2.1, uid :: r.2.2))
        | none => votesGo key2uid rest
      else votesGo key2uid rest

/-- Model of `Vali.votes`: the vote set over the cached module infos, given the
chain's `key2uid` map. -/
def votesFn (infos : List VInfo) (key2uid : List (String × ℕ)) :
    Except Unit VoteSet :=
  (votesGo key2uid infos).map (fun r => ⟨r.1, r.2.1, r.2.2⟩)

/-- Whether `p` is a prefix of `l` (character lists). -/
def isPref : List Char → List Char → Bool
  | [], _ => true
  | _ :: _, [] => false
  | a :: as, b :: bs => a == b && isPref as bs

/-- Whether `needle` occurs contiguously inside `hay` (character lists). -/
def subList (needle : List Char) : List Char → Bool
  | [] => isPref needle []
  | c :: cs => isPref needle (c :: cs) || subList needle cs

/-- Python's substring test `needle in s`. -/
def hasSub (needle s : String) : Bool :=
  subList needle.toList s.toList

/-- Configuration fields read by the vote pipeline. -/
structure VoteCfg where
  network : String
  vote_interval : ℚ
  min_num_weights : ℕ
deriving DecidableEq, Repr

/-- Model of `Vali.vote_staleness` (lines 517-521): on a subspace network, the
chain block height minus the validator's own `last_update` block;
otherwise 0.  It does not read `last_vote_time`. -/
def vote_staleness (cfg : VoteCfg) (block last_update : ℚ) : ℚ :=
  if hasSub "subspace" cfg.network then block - last_update else 0

/-- External inputs of one `vote()` call. -/
structure VoteIn where
  now : ℚ
  block : ℚ
  last_update : ℚ
  last_vote_time : ℚ
  infos : List VInfo
  key2uid : List (String × ℕ)
  submitOk : Bool
deriving DecidableEq, Repr

/-- The outcome of `vote()`. -/
inductive VoteRes where
  | tooNew          -- {'success': False, 'msg': 'Vote is too new'}
  | notVoting       -- {'success': False, 'msg': 'Not a voting network'}
  | tooFewVotes (n : ℕ)
  | raisedTypeErr   -- `votes()` raised
  | raisedSubmit    -- `c.vote(...)` raised
  | voted (vs : VoteSet)
deriving DecidableEq, Repr

/-- Model of `Vali.vote` (lines 366-402, with `async_vote = False`): returns the
result, the `last_vote_time` after the call, and the vote set submitted
to the chain (if any). -/
def vote (cfg : VoteCfg) (inp : VoteIn) : VoteRes × ℚ × Option VoteSet :=
  if vote_staleness cfg inp.block inp.last_update < cfg.vote_interval then
    (.tooNew, inp.last_vote_time, none)
  else if ¬ hasSub "subspace" cfg.network ∧ ¬ hasSub "bittensor" cfg.network then
    (.notVoting, inp.last_vote_time, none)
  else
    match votesFn inp.infos inp.key2uid with
    | .error _ => (.raisedTypeErr, inp.last_vote_time, none)
    | .ok v =>
      if v.uids.length < cfg.min_num_weights then
        (.tooFewVotes v.uids.length, inp.last_vote_time, none)
      else if inp.submitOk then (.voted v, inp.now, some v)
      else (.raisedSubmit, inp.last_vote_time, none)

/-- The records that `votes()` keeps, written after the specification's
words ("score ≥ 0 and an identity resolvable to a ledger voting slot") —
used to compare the code's vote set against the spec's description. -/
def spec_keepsRecord (key2uid : List (String × ℕ)) (i : VInfo) : Bool :=
  decide (0 ≤ i.w.getD 0) && (lookupStr i.ss58_address key2uid).isSome

/-- One evaluation step of a module that keeps failing: the blend with a
fresh weight of 0 (`response = {'w': 0}` in the caught branch). -/
def failStepW (alpha old : ℚ) : ℚ := blendW alpha 0 old

/-- The score after `n` consecutive failed evaluations starting from
`s0`. -/
def failSeq (alpha s0 : ℚ) : ℕ → ℚ
  | 0 => s0
  | n + 1 => failStepW alpha (failSeq alpha s0 n)

end Vali

open Vali

/-! ## Concrete instances used by the claim theorems -/

/-- Scenario of claim C1: `alpha = 0.2`, `maxAge = 10`. -/
def c1cfg : EvalCfg := ⟨1/5, 10⟩

/-- Scenario of claim C1: module `m1` at `addr1`, cached record with
score 0 evaluated at time 0, now stale at `t = 100`; the scoring
function succeeds with `{'w': 1}`. -/
def c1in : EvalIn :=
  { ns := [("m1", "addr1")],
    store := [("m1", { name := "m1", address := some "addr1",
                       timestamp := some 0, w := some 0,
                       ss58_address := none, latency := none })],
    connectOk := true,
    minfo := .ok ⟨none, none, none, none⟩,
    score := .ok (.dict (some 1)),
    t1 := 100, t2 := 100, t3 := 100, requests0 := 0 }

/-- Cache-hit input for claim C2: record evaluated at `t = 95`, score
`1/2`, probed again at `t = 100` with `maxAge = 1000`. -/
def c2cfg : EvalCfg := ⟨1/5, 1000⟩

def c2in : EvalIn :=
  { ns := [("m1", "addr1")],
    store := [("m1", { name := "m1", address := some "addr1",
                       timestamp := some 95, w := some (1/2),
                       ss58_address := none, latency := none })],
    connectOk := true,
    minfo := .ok ⟨none, none, none, none⟩,
    score := .ok (.dict (some 1)),
    t1 := 100, t2 := 100, t3 := 100, requests0 := 0 }

/-- Input for claim C3's counterexample: the transport's connect call
raises (`ConnectionError`). -/
def c3in : EvalIn :=
  { c1in with connectOk := false }

/-- Input for claim C9: first-ever evaluation (no cached record), the
module's self-report carries no score field, and the scoring step
raises. -/
def c9in : EvalIn :=
  { ns := [("m1", "addr1")],
    store := [],
    connectOk := true,
    minfo := .ok ⟨none, none, none, none⟩,
    score := .error (),
    t1 := 100, t2 := 100, t3 := 100, requests0 := 0 }

/-- Vote configuration for claim C5's counterexample: a subspace
network with `voteInterval = 10`. -/
def c5cfg : VoteCfg := ⟨"subspace", 10, 1⟩

/-- Vote input for claim C5's counterexample: the last `vote()` call
happened 5 seconds ago (`now - lastVoteTime = 5 < 10`), but the chain
reports the validator's last on-chain update as 1000 blocks old. -/
def c5in : VoteIn :=
  { now := 5, block := 1000, last_update := 0, last_vote_time := 0,
    infos := [⟨"a", some 1, "k1"⟩], key2uid := [("k1", 0)],
    submitOk := true }

/-! ## Claim theorems -/

/-- Claim C1 (code bug).  In the spec's scenario — cached score 0, fresh
weight 1, `alpha = 0.2` — `eval_module` persists and returns score `1`,
not `alpha * 1 + (1 - alpha) * 0 = 0.2`: line 293 (`info.update(response)`)
overwrites the old score with the fresh weight before the blend at line
299 reads it, so the blend degenerates to the fresh weight. -/
theorem C1_blend_overwrites_old_score :
    (eval_module c1cfg "m1" c1in).1.res =
      .ok { w := 1, modName := "m1", fresh := false, latency := some 0 }
    ∧ ((eval_module c1cfg "m1" c1in).1.stored.map (fun i => i.w)) = some (some 1)
    ∧ c1cfg.alpha * 1 + (1 - c1cfg.alpha) * 0 = 1/5
    ∧ (1 : ℚ) ≠ 1/5 := by
  refine ⟨?_, ?_, by norm_num [c1cfg], by norm_num⟩ <;>
    norm_num [eval_module, eval_core, c1cfg, c1in, updateInfo, tryScore,
      check_response, blendW, resolveModule, lookupStr, putStore, emptyInfo]

/-- Claim C9 (confirmed).  On a first-ever evaluation whose record is
stale and whose scoring step raises, `eval_module` raises a `KeyError`
at the blend line (`info['w']` was never set) instead of returning a
zero-weight result. -/
theorem C9_keyerror_on_first_failed_eval :
    (eval_module c1cfg "m1" c9in).1.res = .error .keyErrorW := by
  norm_num [eval_module, eval_core, c1cfg, c9in, updateInfo, tryScore,
    check_response, resolveModule, lookupStr, emptyInfo]

/-- Claim C2, counterexample.  On a cache hit (staleness `5 < maxAge`),
`eval_module` does return the cached score without calling
`module.info`, but the outbound `c.connect(info['address'])` at line
273 has already been attempted — the claim's "performs no outbound call
to the module" is false. -/
theorem C2_connect_on_cache_hit :
    (eval_module c2cfg "m1" c2in).1.res =
      .ok { w := 1/2, modName := "m1", fresh := true, latency := none }
    ∧ (eval_module c2cfg "m1" c2in).1.connectTried = true
    ∧ (eval_module c2cfg "m1" c2in).1.infoCalled = false := by
  refine ⟨?_, ?_, ?_⟩ <;>
    norm_num [eval_module, eval_core, c2cfg, c2in, resolveModule, lookupStr]

/-- Claim C2, amended.  (1) Freshness short-circuit: whenever the cached
record's staleness is below `maxAge` (and the connect step succeeded),
`eval_module`'s body returns the cached score, makes no `module.info`
call and writes nothing — though the connect was attempted and the
requests counter incremented.  (2) Hence a module evaluated (stale,
successfully scored) and then re-evaluated within `maxAge` of the first
evaluation's timestamp gets the identical score back with no metadata
call. -/
theorem C2_fresh_short_circuit :
    (∀ (cfg : EvalCfg) (info0 : Info) (minfo : Except Unit MInfo)
        (score : Except Unit PyResp) (t1 t2 t3 : ℚ) (r0 : ℕ),
      t1 - info0.timestamp.getD 0 < cfg.max_age →
      eval_core cfg info0 true minfo score t1 t2 t3 r0 =
        { res := .ok { w := info0.w.getD 0, modName := info0.name,
                       fresh := true, latency := none },
          requests := r0 + 1, connectTried := true,
          infoCalled := false, stored := none })
    ∧ (∀ (cfg : EvalCfg) (m n0 a0 : String) (ns : List (String × String))
        (store : List (String × Info)) (mi : MInfo) (p : PyResp) (d : RespD)
        (t1 t2 t3 u1 u2 u3 : ℚ) (r0 r1 : ℕ)
        (minfo2 : Except Unit MInfo) (score2 : Except Unit PyResp),
      resolveModule ns m = (n0, some a0) →
      mi.name = none →
      ¬ (t1 - ((lookupStr n0 store).getD emptyInfo).timestamp.getD 0 < cfg.max_age) →
      check_response p = .ok d →
      u1 - t2 < cfg.max_age →
      (eval_module cfg m ⟨ns, store, true, .ok mi, .ok p, t1, t2, t3, r0⟩).1.res =
        .ok { w := blendW cfg.alpha d.w d.w, modName := n0,
              fresh := false, latency := some (t3 - t2) }
      ∧ (eval_module cfg m
          ⟨ns, (eval_module cfg m ⟨ns, store, true, .ok mi, .ok p, t1, t2, t3, r0⟩).2,
           true, minfo2, score2, u1, u2, u3, r1⟩).1.res =
        .ok { w := blendW cfg.alpha d.w d.w, modName := n0,
              fresh := true, latency := none }
      ∧ (eval_module cfg m
          ⟨ns, (eval_module cfg m ⟨ns, store, true, .ok mi, .ok p, t1, t2, t3, r0⟩).2,
           true, minfo2, score2, u1, u2, u3, r1⟩).1.infoCalled = false) := by
  constructor
  · intro cfg info0 minfo score t1 t2 t3 r0 hfresh
    simp [eval_core, hfresh]
  · intro cfg m n0 a0 ns store mi p d t1 t2 t3 u1 u2 u3 r0 r1 minfo2 score2
      hres hname hstale hcheck hfresh
    simp only [eval_module, hres, eval_core, Option.isSome_some, Bool.and_self,
      Bool.true_and, Bool.false_and]
    simp [hstale, updateInfo, hname, tryScore, hcheck, putStore, lookupStr, hfresh]

/-- Claim C2, witness for the amended theorem: a record evaluated at time
95 and probed at time 100 with `maxAge = 1000` is served from cache. -/
theorem C2_fresh_short_circuit_witness :
    ((100 : ℚ) - (95 : ℚ) < (1000 : ℚ))
    ∧ eval_core c2cfg
        { name := "m1", address := some "addr1", timestamp := some 95,
          w := some (1/2), ss58_address := none, latency := none }
        true (.ok ⟨none, none, none, none⟩) (.ok (.dict (some 1))) 100 100 100 0 =
      { res := .ok { w := (1/2 : ℚ), modName := "m1", fresh := true, latency := none },
        requests := 1, connectTried := true, infoCalled := false, stored := none } := by
  refine ⟨by norm_num, ?_⟩
  have h := C2_fresh_short_circuit.1 c2cfg
    { name := "m1", address := some "addr1", timestamp := some 95,
      w := some (1/2), ss58_address := none, latency := none }
    (.ok ⟨none, none, none, none⟩) (.ok (.dict (some 1))) 100 100 100 0
    (by norm_num [c2cfg])
  simpa using h

/-- Claim C3, counterexample.  `c.connect` (line 273) is outside the
`try` block of `eval_module`: a `ConnectionError` from the module
transport propagates to the caller instead of being converted to a
zero-weight result. -/
theorem C3_connect_error_propagates :
    (eval_module c1cfg "m1" c3in).1.res = .error .connectError := by
  norm_num [eval_module, eval_core, c3in, c1in, resolveModule, lookupStr]

/-- Claim C3, amended.  Only the scoring / response-normalization steps
are guarded: when the connect and metadata fetch succeed and the
(post-update) record carries a score, an exception in the scoring step
is caught and recorded as fresh weight 0 for the blend, and
`eval_module` returns normally.  Exceptions from `c.connect`,
`module.info`, or a missing score key at the blend do propagate. -/
theorem C3_scoring_exceptions_caught :
    ∀ (cfg : EvalCfg) (info0 : Info) (mi : MInfo) (score : Except Unit PyResp)
      (t1 t2 t3 : ℚ) (r0 : ℕ) (oldw : ℚ),
      scoreFailed score = true →
      ¬ (t1 - info0.timestamp.getD 0 < cfg.max_age) →
      (updateInfo info0 mi).w = some oldw →
      eval_core cfg info0 true (.ok mi) score t1 t2 t3 r0 =
        { res := .ok { w := blendW cfg.alpha 0 oldw,
                       modName := (updateInfo info0 mi).name,
                       fresh := false, latency := some (t3 - t2) },
          requests := r0 + 1, connectTried := true, infoCalled := true,
          stored := some { updateInfo info0 mi with
                            timestamp := some t2,
                            w := some (blendW cfg.alpha 0 oldw),
                            latency := some (t3 - t2) } } := by
  intro cfg info0 mi score t1 t2 t3 r0 oldw hfail hstale hw
  cases score with
  | error e =>
    simp [eval_core, hstale, tryScore, hw]
  | ok p =>
    cases hcp : check_response p with
    | error e => simp [eval_core, hstale, tryScore, hcp, hw]
    | ok d => simp [scoreFailed, hcp] at hfail

/-- Claim C3, witness: a stale record with cached score 0 whose scoring
step raises is blended to weight 0 and returned without an
exception. -/
theorem C3_scoring_exceptions_caught_witness :
    scoreFailed (Except.error ()) = true
    ∧ ¬ ((100 : ℚ) - (0 : ℚ) < (10 : ℚ))
    ∧ (eval_core c1cfg
        { name := "m1", address := some "addr1", timestamp := some 0,
          w := some 0, ss58_address := none, latency := none }
        true (.ok ⟨none, none, none, none⟩) (.error ()) 100 100 100 0).res =
      .ok { w := blendW c1cfg.alpha 0 0, modName := "m1",
            fresh := false, latency := some 0 } := by
  refine ⟨rfl, by norm_num, ?_⟩
  have h := C3_scoring_exceptions_caught c1cfg
    { name := "m1", address := some "addr1", timestamp := some 0,
      w := some 0, ss58_address := none, latency := none }
    ⟨none, none, none, none⟩ (.error ()) 100 100 100 0 0
    rfl (by norm_num [c1cfg]) (by simp [updateInfo])
  rw [h]
  norm_num [updateInfo]

/-- Claim C5, counterexample.  With `now - lastVoteTime = 5 < voteInterval
= 10` but a chain-side staleness of 1000 blocks, `vote()` proceeds:
it submits the vote set to the chain and advances `lastVoteTime` — the
guard at vali.py line 371 tests `vote_staleness` (block based), not
`now - lastVoteTime`. -/
theorem C5_vote_proceeds_within_interval :
    vote c5cfg c5in =
      (.voted ⟨["k1"], [1], [0]⟩, 5, some ⟨["k1"], [1], [0]⟩)
    ∧ c5in.now - c5in.last_vote_time < c5cfg.vote_interval := by
  have hs : hasSub "subspace" "subspace" = true := by decide
  constructor
  · norm_num [vote, vote_staleness, hs, votesFn, votesGo, lookupStr,
      Except.map, c5cfg, c5in]
  · norm_num [c5cfg, c5in]

/-- Claim C5, amended.  The rate-limit guard is on `vote_staleness` (for
subspace networks the chain block height minus the validator's own
`last_update` block, otherwise 0), not on `now - lastVoteTime`: whenever
`vote_staleness < voteInterval`, `vote()` returns the non-error
"Vote is too new" result, submits nothing to the chain, and leaves
`lastVoteTime` unchanged. -/
theorem C5_staleness_guard :
    ∀ (cfg : VoteCfg) (inp : VoteIn),
      vote_staleness cfg inp.block inp.last_update < cfg.vote_interval →
      vote cfg inp = (.tooNew, inp.last_vote_time, none) := by
  intro cfg inp h
  simp [vote, h]

/-- Claim C5, witness: on a subspace network whose last on-chain update
is 1 block old (`voteInterval = 10`), `vote()` refuses without
submitting. -/
theorem C5_staleness_guard_witness :
    vote_staleness c5cfg 1 0 < c5cfg.vote_interval
    ∧ vote c5cfg { c5in with block := 1, last_update := 0 } =
        (.tooNew, 0, none) := by
  have hs : hasSub "subspace" "subspace" = true := by decide
  have hst : vote_staleness c5cfg 1 0 < c5cfg.vote_interval := by
    norm_num [vote_staleness, hs, c5cfg]
  refine ⟨hst, ?_⟩
  have h := C5_staleness_guard c5cfg { c5in with block := 1, last_update := 0 } hst
  simpa [c5in] using h

/-- Claim C6, counterexample.  A cached record whose identity is the
empty string *is* included in the vote set when the chain's `key2uid`
map resolves the empty key: `votes()` (vali.py line 338) only tests
`'ss58_address' in info`, never that the identity is non-empty. -/
theorem C6_empty_identity_included :
    votesFn [⟨"b", some 5, ""⟩] [("", 0)] = .ok ⟨[""], [5], [0]⟩
    ∧ "" ∈ (VoteSet.mk [""] [5] [0]).keys := by
  constructor
  · norm_num [votesFn, votesGo, lookupStr, Except.map]
  · simp

/-- Helper for C6: the filtering loop of `votes()` keeps exactly the
records with a non-`None` score `≥ 0` whose identity resolves in
`key2uid`, in order; a `None` score raises. -/
theorem votesGo_characterization (k2u : List (String × ℕ)) :
    ∀ (infos : List VInfo), (∀ i ∈ infos, i.w ≠ none) →
      votesGo k2u infos = .ok
        ((infos.filter (spec_keepsRecord k2u)).map (fun i => i.ss58_address),
         (infos.filter (spec_keepsRecord k2u)).map (fun i => i.w.getD 0),
         (infos.filter (spec_keepsRecord k2u)).map
           (fun i => (lookupStr i.ss58_address k2u).getD 0)) := by
  intro infos
  induction infos with
  | nil => intro _; simp [votesGo]
  | cons i rest ih =>
    intro h
    have hi : i.w ≠ none := h i (List.mem_cons_self i rest)
    have hrest : ∀ j ∈ rest, j.w ≠ none :=
      fun j hj => h j (List.mem_cons_of_mem i hj)
    obtain ⟨w, hw⟩ : ∃ w, i.w = some w := by
      cases hww : i.w with
      | none => exact absurd hww hi
      | some w => exact ⟨w, rfl⟩
    by_cases h0 : 0 ≤ w
    · cases hl : lookupStr i.ss58_address k2u with
      | some uid =>
        simp [votesGo, hw, h0, hl, ih hrest, List.filter_cons,
          spec_keepsRecord, Except.map]
      | none =>
        simp [votesGo, hw, h0, hl, ih hrest, List.filter_cons,
          spec_keepsRecord, Except.map]
    · simp [votesGo, hw, h0, ih hrest, List.filter_cons, spec_keepsRecord,
        Except.map]

/-- Claim C6, amended.  Provided every listed record carries a score (a
`None` score makes `votes()` raise a `TypeError`), the vote set built by
`votes()` consists exactly of the records whose `ss58_address` key is
present — emptiness of the identity string is *not* checked — whose
score is `≥ 0`, and whose identity resolves in the chain's `key2uid`
map; records without a resolvable slot are skipped without an error. -/
theorem C6_vote_set_members :
    ∀ (infos : List VInfo) (k2u : List (String × ℕ)),
      (∀ i ∈ infos, i.w ≠ none) →
      votesFn infos k2u = .ok
        { keys := (infos.filter (spec_keepsRecord k2u)).map (fun i => i.ss58_address),
          weights := (infos.filter (spec_keepsRecord k2u)).map (fun i => i.w.getD 0),
          uids := (infos.filter (spec_keepsRecord k2u)).map
            (fun i => (lookupStr i.ss58_address k2u).getD 0) } := by
  intro infos k2u h
  simp [votesFn, votesGo_characterization k2u infos h, Except.map]

/-- Claim C6, witness: of three records — score 5 with a resolvable slot,
score −1, and score 2 without a slot — only the first is voted on. -/
theorem C6_vote_set_members_witness :
    (∀ i ∈ ([⟨"a", some 5, "x"⟩, ⟨"b", some (-1), "y"⟩, ⟨"c", some 2, "z"⟩] :
        List VInfo), i.w ≠ none)
    ∧ votesFn [⟨"a", some 5, "x"⟩, ⟨"b", some (-1), "y"⟩, ⟨"c", some 2, "z"⟩]
        [("x", 1), ("y", 2)] = .ok { keys := ["x"], weights := [5], uids := [1] } := by
  refine ⟨by simp, ?_⟩
  have h := C6_vote_set_members
    [⟨"a", some 5, "x"⟩, ⟨"b", some (-1), "y"⟩, ⟨"c", some 2, "z"⟩]
    [("x", 1), ("y", 2)] (by simp)
  rw [h]
  norm_num [spec_keepsRecord, lookupStr]
  decide

/-- The blend of a value with itself is the value (this is what makes
the scoring bug of C1 invisible to the EMA bound). -/
theorem blendW_self (alpha w : ℚ) : blendW alpha w w = w := by
  unfold blendW; ring

/-- The blend is a convex combination when `alpha ∈ (0,1)`. -/
theorem blendW_bounds (alpha f b : ℚ) (h0 : 0 < alpha) (h1 : alpha < 1) :
    min b f ≤ blendW alpha f b ∧ blendW alpha f b ≤ max b f := by
  unfold blendW
  have ha : (0 : ℚ) ≤ alpha := le_of_lt h0
  have hb : (0 : ℚ) ≤ 1 - alpha := by linarith
  constructor
  · have h2 : min b f ≤ f := min_le_right b f
    have h3 : min b f ≤ b := min_le_left b f
    nlinarith [mul_nonneg ha (sub_nonneg.2 h2), mul_nonneg hb (sub_nonneg.2 h3)]
  · have h2 : f ≤ max b f := le_max_right b f
    have h3 : b ≤ max b f := le_max_left b f
    nlinarith [mul_nonneg ha (sub_nonneg.2 h2), mul_nonneg hb (sub_nonneg.2 h3)]

/-- Closed form of the consecutive-failure score sequence. -/
theorem failSeq_eq (alpha s0 : ℚ) : ∀ n, failSeq alpha s0 n = (1 - alpha) ^ n * s0
  | 0 => by simp [failSeq]
  | n + 1 => by
    simp only [failSeq, failStepW, blendW, failSeq_eq alpha s0 n, pow_succ]
    ring

/-- Claim C7 (confirmed).  For `alpha ∈ (0,1)`: (1) any evaluation of a
stale record with cached score `w_old` (and a metadata report that does
not itself carry a score) returns a score between `min(w_old, w_fresh)`
and `max(w_old, w_fresh)`, where `w_fresh` is the fresh weight the
blend reads; (2) the score sequence of a module failing every
evaluation from `s0 ≥ 0` is nonnegative, monotonically nonincreasing,
and converges to 0; (3) one failing evaluation indeed steps the stored
score by `failStepW`. -/
theorem C7_ema_bound_and_dampening :
    ∀ alpha : ℚ, 0 < alpha → alpha < 1 →
      (∀ (cfg : EvalCfg) (info0 : Info) (mi : MInfo) (score : Except Unit PyResp)
          (t1 t2 t3 : ℚ) (r0 : ℕ) (w_old : ℚ) (ret : EvalReturn),
        cfg.alpha = alpha →
        ¬ (t1 - info0.timestamp.getD 0 < cfg.max_age) →
        mi.w = none → info0.w = some w_old →
        (eval_core cfg info0 true (.ok mi) score t1 t2 t3 r0).res = .ok ret →
        min w_old (freshW score) ≤ ret.w ∧ ret.w ≤ max w_old (freshW score))
      ∧ (∀ s0 : ℚ, 0 ≤ s0 →
          (∀ n : ℕ, 0 ≤ failSeq alpha s0 n)
          ∧ (∀ n : ℕ, failSeq alpha s0 (n + 1) ≤ failSeq alpha s0 n)
          ∧ (∀ ε : ℚ, 0 < ε → ∃ N : ℕ, ∀ n : ℕ, N ≤ n → failSeq alpha s0 n < ε))
      ∧ (∀ old : ℚ,
          ((eval_core ⟨alpha, 0⟩
            { name := "m", address := some "a", timestamp := some 0,
              w := some old, ss58_address := none, latency := none }
            true (.ok ⟨none, none, none, none⟩) (.error ()) 1 1 1 0).stored.map
              (fun i => i.w)) = some (some (failStepW alpha old))) := by
  intro alpha h0 h1
  have ha : (0 : ℚ) ≤ 1 - alpha := by linarith
  have ha1 : (1 : ℚ) - alpha < 1 := by linarith
  refine ⟨?_, ?_, ?_⟩
  · intro cfg info0 mi score t1 t2 t3 r0 w_old ret halpha hstale hmiw hw hres
    cases score with
    | error e =>
      simp only [eval_core, tryScore, updateInfo, hmiw, hw, hstale] at hres
      simp only [Bool.true_eq_false, if_false, if_neg hstale] at hres
      rw [Except.ok.injEq] at hres
      subst hres
      simpa [freshW, halpha] using blendW_bounds alpha 0 w_old h0 h1
    | ok p =>
      cases hcp : check_response p with
      | error e =>
        simp only [eval_core, tryScore, updateInfo, hmiw, hw, hstale, hcp] at hres
        simp only [Bool.true_eq_false, if_false, if_neg hstale] at hres
        rw [Except.ok.injEq] at hres
        subst hres
        simpa [freshW, hcp, halpha] using blendW_bounds alpha 0 w_old h0 h1
      | ok d =>
        simp only [eval_core, tryScore, updateInfo, hmiw, hw, hstale, hcp] at hres
        simp only [Bool.true_eq_false, if_false, if_neg hstale] at hres
        rw [Except.ok.injEq] at hres
        subst hres
        simp only [freshW, hcp, halpha, blendW_self]
        exact ⟨min_le_right w_old d.w, le_max_right w_old d.w⟩
  · intro s0 hs0
    have hnonneg : ∀ n : ℕ, 0 ≤ failSeq alpha s0 n := by
      intro n
      rw [failSeq_eq]
      exact mul_nonneg (pow_nonneg ha n) hs0
    refine ⟨hnonneg, ?_, ?_⟩
    · intro n
      have h := hnonneg n
      simp only [failSeq, failStepW, blendW]
      nlinarith [mul_nonneg (le_of_lt h0) h]
    · intro ε hε
      have hpos : (0 : ℚ) < s0 + 1 := by linarith
      obtain ⟨N, hN⟩ := exists_pow_lt_of_lt_one
        (show (0 : ℚ) < ε / (s0 + 1) by positivity) ha1
      refine ⟨N, fun n hn => ?_⟩
      rw [failSeq_eq]
      calc (1 - alpha) ^ n * s0
          ≤ (1 - alpha) ^ N * s0 :=
            mul_le_mul_of_nonneg_right (pow_le_pow_of_le_one ha (by linarith) hn) hs0
        _ ≤ ε / (s0 + 1) * s0 := mul_le_mul_of_nonneg_right (le_of_lt hN) hs0
        _ < ε := by
            rw [div_mul_eq_mul_div, div_lt_iff₀ hpos]
            nlinarith
  · intro old
    norm_num [eval_core, updateInfo, tryScore, failStepW, blendW]

/-- Claim C7, witness: at `alpha = 1/2` and `s0 = 1` the failing-module
score sequence is nonnegative and nonincreasing at step 3. -/
theorem C7_ema_bound_and_dampening_witness :
    (0 : ℚ) < 1/2 ∧ (1/2 : ℚ) < 1 ∧ (0 : ℚ) ≤ 1
    ∧ 0 ≤ failSeq (1/2) 1 3 ∧ failSeq (1/2) 1 4 ≤ failSeq (1/2) 1 3 := by
  have h := C7_ema_bound_and_dampening (1/2) (by norm_num) (by norm_num)
  have h2 := h.2.1 1 (by norm_num)
  exact ⟨by norm_num, by norm_num, by norm_num, h2.1 3, h2.2.1 3⟩

/-- Removing an element never lengthens a list. -/
theorem eraseIdx_length_le {α : Type} :
    ∀ (l : List α) (i : ℕ), (l.eraseIdx i).length ≤ l.length
  | [], _ => le_refl 0
  | _ :: _, 0 => Nat.le_succ _
  | a :: l, i + 1 => by
    simpa [List.eraseIdx] using Nat.succ_le_succ (eraseIdx_length_le l i)

/-- One loop iteration keeps the pool within the bound. -/
theorem epochStep_length {k : ℕ} {ev : DrainEv} {m : String} {s : EpochState}
    (h : s.futures.length ≤ k) : (epochStep k ev m s).futures.length ≤ k := by
  unfold epochStep
  by_cases hlt : s.futures.length < k
  · simp only [hlt, if_true, List.length_append, List.length_cons,
      List.length_nil]
    omega
  · cases ev with
    | completes j =>
      simpa [hlt] using le_trans (eraseIdx_length_le _ _) h
    | timeoutErr => simpa [hlt] using h

/-- The dispatch loop keeps the pool within the bound at every
iteration and at its end. -/
theorem epochLoop_inv (k : ℕ) (evs : ℕ → DrainEv) :
    ∀ (mods : List String) (i : ℕ) (s : EpochState),
      s.futures.length ≤ k →
      (∀ x ∈ (epochLoop k evs i mods s).1, x.futures.length ≤ k)
      ∧ (epochLoop k evs i mods s).2.futures.length ≤ k := by
  intro mods
  induction mods with
  | nil => intro i s h; simp [epochLoop, h]
  | cons m ms ih =>
    intro i s h
    have h' : (epochStep k (evs i) m s).futures.length ≤ k := epochStep_length h
    have hrec := ih (i + 1) (epochStep k (evs i) m s) h'
    constructor
    · intro x hx
      simp only [epochLoop, List.mem_cons] at hx
      rcases hx with rfl | hx
      · exact h'
      · exact hrec.1 x hx
    · simpa [epochLoop] using hrec.2

/-- The final drain keeps the pool within the bound. -/
theorem finalDrain_inv (dvs : ℕ → ℕ) (k : ℕ) :
    ∀ (fuel i : ℕ) (s : EpochState), s.futures.length ≤ k →
      ∀ x ∈ finalDrain dvs fuel i s, x.futures.length ≤ k := by
  intro fuel
  induction fuel with
  | zero => intro i s _ x hx; simp [finalDrain] at hx
  | succ f ih =>
    intro i s h x hx
    unfold finalDrain at hx
    by_cases he : s.futures.isEmpty
    · simp [he] at hx
    · simp only [he, if_false, List.mem_cons, Bool.false_eq_true] at hx
      have h' : ({ s with futures :=
          s.futures.eraseIdx (dvs i % s.futures.length) } :
            EpochState).futures.length ≤ k :=
        le_trans (eraseIdx_length_le _ _) h
      rcases hx with rfl | hx
      · exact h'
      · exact ih (i + 1) _ h' x hx

/-- Claim C8 (confirmed).  Throughout an epoch — initial state, every
iteration of the dispatch loop, and the final drain — the number of
in-flight futures never exceeds `batchSize`, for every namespace,
batch size and completion order. -/
theorem C8_concurrency_bound :
    ∀ (k : ℕ) (evs : ℕ → DrainEv) (dvs : ℕ → ℕ) (mods : List String),
      (epochTrace k evs dvs mods).all
        (fun s => decide (s.futures.length ≤ k)) = true := by
  intro k evs dvs mods
  rw [List.all_eq_true]
  intro s hs
  rw [decide_eq_true_eq]
  have h0 : (⟨[], []⟩ : EpochState).futures.length ≤ k := Nat.zero_le k
  have hloop := epochLoop_inv k evs mods 0 ⟨[], []⟩ h0
  simp only [epochTrace, List.mem_cons, List.mem_append] at hs
  rcases hs with (rfl | hs) | hs
  · exact h0
  · exact hloop.1 s hs
  · exact finalDrain_inv dvs k _ 0 _ hloop.2 s hs

/-- All branches of the evaluation body past a successful connect leave
the requests counter incremented by exactly one. -/
theorem eval_core_requests (cfg : EvalCfg) (info0 : Info)
    (minfo : Except Unit MInfo) (score : Except Unit PyResp)
    (t1 t2 t3 : ℚ) (r0 : ℕ) :
    (eval_core cfg info0 true minfo score t1 t2 t3 r0).requests = r0 + 1 := by
  unfold eval_core
  norm_num
  split
  · rfl
  · cases minfo with
    | error e => rfl
    | ok mi =>
      dsimp only
      split
      · rfl
      · rfl

/-- Claim C10, counterexample.  A call whose module address resolves
but whose `c.connect` raises does *not* increment the `requests`
counter: the increment at vali.py line 274 runs only after the connect
at line 273 succeeded, so the claim's "every call that resolves the
module's address" is false. -/
theorem C10_no_increment_on_connect_failure :
    (resolveModule c3in.ns "m1").2 = some "addr1"
    ∧ (eval_module c1cfg "m1" c3in).1.requests = c3in.requests0
    ∧ c3in.requests0 = 0 := by
  refine ⟨by simp [resolveModule, lookupStr, c3in, c1in], ?_, rfl⟩
  norm_num [eval_module, eval_core, c3in, c1in, resolveModule, lookupStr]

/-- Claim C10, amended.  Every `eval_module` call whose module address
resolves *and whose connect step succeeds* increments the `requests`
counter by exactly one — the increment (line 274) precedes the
freshness check, so cache hits are counted as requests too; when the
connect raises, the counter is left unchanged (see the
counterexample). -/
theorem C10_requests_incremented :
    ∀ (cfg : EvalCfg) (m : String) (inp : EvalIn) (a : String),
      (resolveModule inp.ns m).2 = some a →
      inp.connectOk = true →
      (eval_module cfg m inp).1.requests = inp.requests0 + 1 := by
  intro cfg m inp a hres hconn
  simp only [eval_module, hres, hconn, Option.isSome_some, Bool.and_self]
  exact eval_core_requests _ _ _ _ _ _ _ _

/-- Claim C10, witness: a cache-hit evaluation (the freshness
short-circuit input of C2) still counts as one request. -/
theorem C10_requests_incremented_witness :
    (resolveModule c2in.ns "m1").2 = some "addr1"
    ∧ c2in.connectOk = true
    ∧ (eval_module c2cfg "m1" c2in).1.requests = c2in.requests0 + 1 := by
  refine ⟨by simp [resolveModule, lookupStr, c2in], rfl, ?_⟩
  exact C10_requests_incremented c2cfg "m1" c2in "addr1"
    (by simp [resolveModule, lookupStr, c2in]) rfl

/-- Claim C4 (code bug).  Epoch over three modules with `batchSize = 1`,
every in-flight evaluation completing as soon as the pool is polled:
the loop submits only the first and third modules — when the pool is
full the else-branch (lines 115-135) drains one future and moves to the
next index without ever submitting the current one — so `m1` is never
evaluated. -/
theorem C4_module_skipped_when_pool_full :
    epochRun 1 (fun _ => .completes 0) ["m0", "m1", "m2"] =
      { futures := ["m2"], submitted := ["m0", "m2"] }
    ∧ "m1" ∉ (epochRun 1 (fun _ => .completes 0) ["m0", "m1", "m2"]).submitted := by
  refine ⟨by decide, by decide⟩
